import Mathlib

/-!
# Verification of the nphysics example scenes

Shallow embedding of the two example programs of this repository,
`src/examples3d/multibody3.rs` (scene `init_world` plus its two per-step
callbacks) and `src/examples/cross3d.rs` (scene `cross3d`), together with
models of the engine operations they call (multibody construction, handle
lookups, limit solving, integrator stepping).  The engine itself is not part
of the given sources, so those operations are modelled from the
specification; everything that is in the sources (joint parameters, limit
values, callback threshold logic, scene contents) is translated directly.

The scalar type of the engine is generic (`N: RealField` in the source); we
embed it as a `LinearOrderedField` parameter, instantiated at `ℚ` for
concrete evaluation.
-/

/-- `RevoluteJoint::new(axis, angle)`: one rotational degree of freedom.
Only the offset state is modelled; the axis is a spatial parameter that no
claim depends on. -/
structure RevoluteJoint (N : Type) where
  offset : N
deriving DecidableEq, Repr

/-- `PrismaticJoint::new(axis, offset)` with its optional min/max offset
limits (`enable_min_offset` / `enable_max_offset`). -/
structure PrismaticJoint (N : Type) where
  offset : N
  minOffset : Option N := none
  maxOffset : Option N := none
deriving DecidableEq, Repr

/-- `BallJoint::new(orientation)`: 3 rotational DOF; no claim inspects its
state. -/
structure BallJoint (N : Type) where
  dummy : Unit := ()
deriving DecidableEq, Repr

/-- `UniversalJoint::new(axis1, axis2, angle1, angle2)` with the second
angular motor (`enable_angular_motor_2`,
`set_desired_angular_motor_velocity_2`). -/
structure UniversalJoint (N : Type) where
  offset1 : N
  offset2 : N
  angularMotor2Enabled : Bool := false
  desiredAngularMotorVelocity2 : N
deriving DecidableEq, Repr

/-- `HelicalJoint::new(axis, pitch, angle)` with its angular motor state
(`enable_angular_motor` / `disable_angular_motor`,
`set_desired_angular_motor_velocity`). -/
structure HelicalJoint (N : Type) where
  pitch : N
  offset : N
  angularMotorEnabled : Bool := false
  desiredAngularMotorVelocity : N
deriving DecidableEq, Repr

/-- `PlanarJoint::new(axis1, axis2, pos1, pos2, angle)` with optional limits
on both translational offsets. -/
structure PlanarJoint (N : Type) where
  offset1 : N
  offset2 : N
  angle : N
  minOffset1 : Option N := none
  maxOffset1 : Option N := none
  minOffset2 : Option N := none
  maxOffset2 : Option N := none
deriving DecidableEq, Repr

/-- `RectangularJoint::new(axis1, axis2, pos1, pos2)` with optional limits on
both translational offsets. -/
structure RectangularJoint (N : Type) where
  offset1 : N
  offset2 : N
  minOffset1 : Option N := none
  maxOffset1 : Option N := none
  minOffset2 : Option N := none
  maxOffset2 : Option N := none
deriving DecidableEq, Repr

/-- `PinSlotJoint::new(axis_v, axis_w, position, angle)` with its linear
motor state (`enable_linear_motor` / `disable_linear_motor`,
`set_desired_linear_motor_velocity`). -/
structure PinSlotJoint (N : Type) where
  offset : N
  angle : N
  linearMotorEnabled : Bool := false
  desiredLinearMotorVelocity : N
deriving DecidableEq, Repr

/-- `FixedJoint::new(iso)`: 0 DOF. -/
structure FixedJoint (N : Type) where
  dummy : Unit := ()
deriving DecidableEq, Repr

/-- The closed catalog of joint variants used by the examples (spec §4.2
recommends a closed tagged-variant representation). -/
inductive Joint (N : Type) where
  | revolute (j : RevoluteJoint N)
  | prismatic (j : PrismaticJoint N)
  | ball (j : BallJoint N)
  | universal (j : UniversalJoint N)
  | helical (j : HelicalJoint N)
  | planar (j : PlanarJoint N)
  | rectangular (j : RectangularJoint N)
  | pinSlot (j : PinSlotJoint N)
  | fixedJoint (j : FixedJoint N)
deriving DecidableEq, Repr

/-- `joint.downcast_mut::<HelicalJoint<N>>()`: succeeds exactly when the
dynamic joint is a helical joint. -/
def Joint.downcastHelical {N : Type} : Joint N → Option (HelicalJoint N)
  | .helical j => some j
  | _ => none

/-- `joint.downcast_mut::<PinSlotJoint<N>>()`: succeeds exactly when the
dynamic joint is a pin-slot joint. -/
def Joint.downcastPinSlot {N : Type} : Joint N → Option (PinSlotJoint N)
  | .pinSlot j => some j
  | _ => none

/-- Solver-style update of a joint's primary offset coordinate: changes the
offset state but never the joint's variant (the solver integrates
generalized coordinates, it never retypes a joint). -/
def Joint.withOffset {N : Type} (v : N) : Joint N → Joint N
  | .revolute j => .revolute { j with offset := v }
  | .prismatic j => .prismatic { j with offset := v }
  | .ball j => .ball j
  | .universal j => .universal { j with offset1 := v }
  | .helical j => .helical { j with offset := v }
  | .planar j => .planar { j with offset1 := v }
  | .rectangular j => .rectangular { j with offset1 := v }
  | .pinSlot j => .pinSlot { j with offset := v }
  | .fixedJoint j => .fixedJoint j

/-- Modelled from the spec (§3, §4.3): a multibody link.  `index` is the
link's position in the multibody (0 = root), `parent` the index of its
parent link (`none` for the root), `joint` its joint — the incoming joint
from its parent link, or for the root the joint anchoring the multibody.
The engine's `Multibody`/`MultibodyLink` types are not among the given
sources. -/
structure Link (N : Type) where
  index : Nat
  parent : Option Nat
  joint : Joint N
deriving DecidableEq, Repr

/-- Modelled from the spec (§3): a multibody is a tree of links; the engine's
`Multibody` type is not among the given sources. -/
structure Multibody (N : Type) where
  links : List (Link N)
deriving DecidableEq, Repr

/-- Modelled from the spec (§6): `link(index) -> Option<LinkRef>`, absent for
an out-of-range index.  Also stands for the mutable variant `link_mut`. -/
def Multibody.link {N : Type} (mb : Multibody N) (i : Nat) : Option (Link N) :=
  mb.links.get? i

/-- Number of joints connecting a link to a parent link (the root's anchor
joint connects to the outside world, not to a parent link; spec §3: each
link owns exactly one incoming joint to its parent, or is the root). -/
def Multibody.jointCount {N : Type} (mb : Multibody N) : Nat :=
  (mb.links.filter (fun l => l.parent.isSome)).length

/-- Modelled from the spec (§4.3): the multibody builder.  `init_world` only
ever builds chains — every `add_child` call is applied to the handle
returned by the previous attachment (`curr = curr.add_child(..)`) — so the
descriptor is a root joint plus the chain of child joints in attachment
order.  The engine's `MultibodyDesc` type is not among the given sources. -/
structure MultibodyDesc (N : Type) where
  rootJoint : Joint N
  childJoints : List (Joint N)
deriving DecidableEq, Repr

/-- `MultibodyDesc::new(joint)`. -/
def MultibodyDesc.new {N : Type} (j : Joint N) : MultibodyDesc N :=
  ⟨j, []⟩

/-- `curr.add_child(joint)`: attaches one more child to the end of the chain
and returns the descriptor whose latest link is the new child (so further
`add_child` calls extend the chain below it). -/
def MultibodyDesc.addChild {N : Type} (d : MultibodyDesc N) (j : Joint N) :
    MultibodyDesc N :=
  ⟨d.rootJoint, d.childJoints ++ [j]⟩

/-- The non-root links of a built chain: the child stored after the link of
index `idx` becomes link `idx + 1` with parent `idx`, and so on down the
chain. -/
def buildChain {N : Type} : List (Joint N) → Nat → List (Link N)
  | [], _ => []
  | j :: rest, idx => ⟨idx + 1, some idx, j⟩ :: buildChain rest (idx + 1)

/-- Modelled from the spec (§4.3): `MultibodyDesc::build` — link indices are
assigned in attachment order with the root at index 0; the child attached at
chain position `i` (0-based) becomes link `i + 1` with parent link `i`. -/
def MultibodyDesc.build {N : Type} (d : MultibodyDesc N) : Multibody N :=
  ⟨⟨0, none, d.rootJoint⟩ :: buildChain d.childJoints 0⟩

/-- The loop `for _ in 0..num { curr = curr.add_child(child) }` of
`init_world`, starting from `MultibodyDesc::new(root)`. -/
def chainDesc {N : Type} (root child : Joint N) (k : Nat) : MultibodyDesc N :=
  (List.range k).foldl (fun d _ => d.addChild child) (MultibodyDesc.new root)

example : (chainDesc (N := ℚ) (.ball {}) (.ball {}) 3).build.links.length = 4 := by
  decide

/-- A body stored in the body set: the examples insert multibodies and one
`Ground::new()`. -/
inductive Body (N : Type) where
  | multibody (mb : Multibody N)
  | ground
deriving DecidableEq, Repr

/-- View a body as a multibody (`None` for the ground body). -/
def Body.asMultibody {N : Type} : Body N → Option (Multibody N)
  | .multibody mb => some mb
  | .ground => none

/-- Modelled from the spec (§6, §9): `DefaultBodySet` as an arena with stable
handles — `insert` hands out a fresh handle that is never reused, `remove`
deletes the entry, and lookups by a stale handle report absent.  The engine's
`DefaultBodySet` type is not among the given sources. -/
structure BodySet (N : Type) where
  entries : List (Nat × Body N)
  nextHandle : Nat
deriving DecidableEq, Repr

/-- `DefaultBodySet::new()`. -/
def BodySet.empty {N : Type} : BodySet N := ⟨[], 0⟩

/-- `bodies.insert(body)`: stores the body under a fresh handle and returns
the new set together with that handle. -/
def BodySet.insert {N : Type} (bs : BodySet N) (b : Body N) :
    BodySet N × Nat :=
  (⟨bs.entries ++ [(bs.nextHandle, b)], bs.nextHandle + 1⟩, bs.nextHandle)

/-- `bodies.remove(handle)`: deletes the entry; the handle is never handed
out again (`nextHandle` is unchanged, so it stays ahead of every issued
handle). -/
def BodySet.removeBody {N : Type} (bs : BodySet N) (h : Nat) : BodySet N :=
  ⟨bs.entries.filter (fun e => e.1 ≠ h), bs.nextHandle⟩

/-- `bodies.multibody_mut(handle)`: looks the handle up in the set and views
the result as a multibody; absent for a stale or foreign handle. -/
def BodySet.multibody_mut {N : Type} (bs : BodySet N) (h : Nat) :
    Option (Multibody N) :=
  (bs.entries.find? (fun e => e.1 == h)).bind (fun e => e.2.asMultibody)

/-- Replace the joint of the link at list position `i`. -/
def setJointLinks {N : Type} : List (Link N) → Nat → Joint N → List (Link N)
  | [], _, _ => []
  | l :: rest, 0, j => { l with joint := j } :: rest
  | l :: rest, i + 1, j => l :: setJointLinks rest i j

/-- Replace the joint of link `i` of a multibody (the write-back performed
through `helical.joint_mut()`). -/
def Multibody.setJoint {N : Type} (mb : Multibody N) (i : Nat) (j : Joint N) :
    Multibody N :=
  ⟨setJointLinks mb.links i j⟩

/-- Replace the joint of link `i` of a body (no-op on the ground). -/
def Body.setJoint {N : Type} : Body N → Nat → Joint N → Body N
  | .multibody mb, i, j => .multibody (mb.setJoint i j)
  | .ground, _, _ => .ground

/-- Write a joint back through a `(handle, link index)` pair. -/
def BodySet.setJoint {N : Type} (bs : BodySet N) (h i : Nat) (j : Joint N) :
    BodySet N :=
  ⟨bs.entries.map (fun e => if e.1 = h then (e.1, e.2.setJoint i j) else e),
    bs.nextHandle⟩

/-- Apply `Joint.withOffset` to the link at list position `i`. -/
def setOffsetLinks {N : Type} : List (Link N) → Nat → N → List (Link N)
  | [], _, _ => []
  | l :: rest, 0, v => { l with joint := l.joint.withOffset v } :: rest
  | l :: rest, i + 1, v => l :: setOffsetLinks rest i v

/-- Solver-style offset update of link `i`: the generalized coordinate
changes, the joint's variant does not. -/
def Multibody.setLinkOffset {N : Type} (mb : Multibody N) (i : Nat) (v : N) :
    Multibody N :=
  ⟨setOffsetLinks mb.links i v⟩

/-- Solver-style offset update of link `i` of a body (no-op on the
ground). -/
def Body.offsetAt {N : Type} (b : Body N) (i : Nat) (v : N) : Body N :=
  match b with
  | .multibody mb => .multibody (mb.setLinkOffset i v)
  | .ground => .ground

/-- Solver-style offset update through a body handle. -/
def BodySet.setLinkOffset {N : Type} (bs : BodySet N) (h i : Nat) (v : N) :
    BodySet N :=
  ⟨bs.entries.map (fun e => if e.1 = h then (e.1, e.2.offsetAt i v) else e),
    bs.nextHandle⟩

/-- The body of the first callback of `init_world` (multibody3.rs lines
247-251): enable the helical joint's angular motor below offset `-5.0`,
disable it above offset `0.0`, leave it unchanged in between. -/
def helicalMotorUpdate {N : Type} [LinearOrderedField N]
    (dof : HelicalJoint N) : HelicalJoint N :=
  if dof.offset < -5 then { dof with angularMotorEnabled := true }
  else if dof.offset > 0 then { dof with angularMotorEnabled := false }
  else dof

/-- The body of the second callback of `init_world` (multibody3.rs lines
269-273): enable the pin-slot joint's linear motor below offset `-10.0`,
disable it above offset `-4.0`, leave it unchanged in between. -/
def pinSlotMotorUpdate {N : Type} [LinearOrderedField N]
    (dof : PinSlotJoint N) : PinSlotJoint N :=
  if dof.offset < -10 then { dof with linearMotorEnabled := true }
  else if dof.offset > -4 then { dof with linearMotorEnabled := false }
  else dof

/-- The first callback of `init_world` (multibody3.rs lines 233-253): look up
link 0 of the helical multibody; if absent (the user deleted the body) skip;
otherwise downcast the joint to `HelicalJoint` — `unwrap` panics if the
downcast fails, modelled by `none` — and run the motor update. -/
def helicalCallback {N : Type} [LinearOrderedField N] (h : Nat)
    (bs : BodySet N) : Option (BodySet N) :=
  match (bs.multibody_mut h).bind (fun mb => mb.link 0) with
  | none => some bs
  | some l =>
    match l.joint.downcastHelical with
    | none => none
    | some dof => some (bs.setJoint h 0 (.helical (helicalMotorUpdate dof)))

/-- The second callback of `init_world` (multibody3.rs lines 255-275): same
shape as `helicalCallback`, for the pin-slot multibody and its linear
motor. -/
def pinSlotCallback {N : Type} [LinearOrderedField N] (h : Nat)
    (bs : BodySet N) : Option (BodySet N) :=
  match (bs.multibody_mut h).bind (fun mb => mb.link 0) with
  | none => some bs
  | some l =>
    match l.joint.downcastPinSlot with
    | none => none
    | some dof => some (bs.setJoint h 0 (.pinSlot (pinSlotMotorUpdate dof)))

/-- Events that can hit the body set between steps while the demo runs: the
user interactively deletes a body, the solver moves a joint's generalized
coordinate, or one of the two registered callbacks fires. -/
inductive WorldOp (N : Type) where
  | removeBody (h : Nat)
  | solverSetOffset (h i : Nat) (v : N)
  | runHelicalCallback
  | runPinSlotCallback

/-- One event applied to the body set; `none` models a panic inside a
callback (the `unwrap`). -/
def applyOp {N : Type} [LinearOrderedField N] (helH pinH : Nat) :
    WorldOp N → BodySet N → Option (BodySet N)
  | .removeBody h, bs => some (bs.removeBody h)
  | .solverSetOffset h i v, bs => some (bs.setLinkOffset h i v)
  | .runHelicalCallback, bs => helicalCallback helH bs
  | .runPinSlotCallback, bs => pinSlotCallback pinH bs

/-- Run a sequence of events; `none` as soon as any callback panics. -/
def runOps {N : Type} [LinearOrderedField N] (helH pinH : Nat) :
    List (WorldOp N) → BodySet N → Option (BodySet N)
  | [], bs => some bs
  | op :: ops, bs => (applyOp helH pinH op bs).bind (runOps helH pinH ops)

/-- A collider built by `collider_desc.build(BodyPartHandle(handle, i))`:
attachment point (body handle, link index) plus the density; the shape is a
spatial parameter no claim depends on. -/
structure Collider (N : Type) where
  bodyHandle : Nat
  linkIndex : Nat
  density : N
deriving DecidableEq, Repr

/-- The world assembled by `init_world`: gravity, all bodies, all colliders,
and the data captured by the testbed — the two multibody handles captured by
the registered callbacks and the ground handle. -/
structure World (N : Type) where
  gravity : N × N × N
  bodies : BodySet N
  colliders : List (Collider N)
  helicalHandle : Nat
  pinSlotHandle : Nat
  groundHandle : Nat
deriving DecidableEq, Repr

/-- The planar joint of `init_world` at grid position `(i, j)` (multibody3.rs
lines 166-179): initial offsets from the grid arithmetic (with the
half-cuboid offset on even rows), offset-1 limited to
`[-width/2, width/2]`, offset-2 bounded below by `-5.0`. -/
def planarGridJoint (N : Type) [LinearOrderedField N] (i j : Nat) : Joint N :=
  let rad : N := 1/5
  let width : N := 5 * rad * 4
  let x0 : N := (i : N) * rad * 4 - width / 2
  let x : N := if j % 2 = 0 then x0 + rad * 2 else x0
  let y : N := (j : N) * rad * 4 - width / 2
  .planar ⟨x, y, 0, some (-(width / 2)), some (width / 2), some (-5), none⟩

/-- The rectangular joint of `init_world` at grid position `(i, j)`
(multibody3.rs lines 194-207): the same grid arithmetic and limits as the
planar grid, without the angular DOF. -/
def rectGridJoint (N : Type) [LinearOrderedField N] (i j : Nat) : Joint N :=
  let rad : N := 1/5
  let width : N := 5 * rad * 4
  let x0 : N := (i : N) * rad * 4 - width / 2
  let x : N := if j % 2 = 0 then x0 + rad * 2 else x0
  let y : N := (j : N) * rad * 4 - width / 2
  .rectangular ⟨x, y, some (-(width / 2)), some (width / 2), some (-5), none⟩

/-- All bodies `init_world` inserts, in insertion order (multibody3.rs lines
41-281): the revolute, prismatic and ball 6-chains, the fixed-root/universal
pair, the helical root, the 25 planar and 25 rectangular grid roots (outer
loop `i`, inner loop `j`), the pin-slot root, and finally the ground.
`bodies.insert` hands out handles sequentially from 0, so the `n`-th body of
this list lives at handle `n`. -/
def initBodies (N : Type) [LinearOrderedField N] : List (Body N) :=
  let rad : N := 1/5
  -- `RevoluteJoint::new(Vector3::x_axis(), -0.1)`.
  let revo : Joint N := .revolute ⟨-(1/10)⟩
  -- `PrismaticJoint::new(Vector3::y_axis(), 0.0)` with
  -- `enable_min_offset(-rad * 2.0)`.
  let prism : Joint N := .prismatic ⟨0, some (-(rad * 2)), none⟩
  let spherical : Joint N := .ball {}
  let fixedRoot : Joint N := .fixedJoint {}
  -- `UniversalJoint::new(axis1, axis2, 0.0, 0.0)` with angular motor 2
  -- enabled at desired velocity 5.0.
  let uni : Joint N := .universal ⟨0, 0, true, 5⟩
  -- `HelicalJoint::new(axis, 1.0, 0.0)` with desired angular motor
  -- velocity 4.0 (motor not yet enabled).
  let hel : Joint N := .helical ⟨1, 0, false, 4⟩
  -- `PinSlotJoint::new(axis_v, axis_w, -10.0, 0.0)` with desired linear
  -- motor velocity 3.0 (motor not yet enabled).
  let pin : Joint N := .pinSlot ⟨-10, 0, false, 3⟩
  [.multibody (chainDesc revo revo 6).build,
    .multibody (chainDesc prism prism 6).build,
    .multibody (chainDesc spherical spherical 6).build,
    .multibody ((MultibodyDesc.new fixedRoot).addChild uni).build,
    .multibody (MultibodyDesc.new hel).build]
  ++ (List.range 5).flatMap (fun i => (List.range 5).map (fun j =>
      Body.multibody (MultibodyDesc.new (planarGridJoint N i j)).build))
  ++ (List.range 5).flatMap (fun i => (List.range 5).map (fun j =>
      Body.multibody (MultibodyDesc.new (rectGridJoint N i j)).build))
  ++ [.multibody (MultibodyDesc.new pin).build, Body.ground]

/-- All colliders `init_world` inserts, in insertion order, as
`(handle, link index, density)` triples.  The handle literals are the
insertion positions of `initBodies`: 0 revolute chain, 1 prismatic chain,
2 ball chain, 3 universal, 4 helical, 5-29 planar grid, 30-54 rectangular
grid, 55 pin-slot.  Every collider is built from a descriptor of
density 1.0. -/
def initColliders (N : Type) [LinearOrderedField N] : List (Collider N) :=
  (List.range 7).map (fun i => (⟨0, i, 1⟩ : Collider N))
  ++ (List.range 7).map (fun i => (⟨1, i, 1⟩ : Collider N))
  ++ (List.range 7).map (fun i => (⟨2, i, 1⟩ : Collider N))
  ++ [⟨3, 0, 1⟩, ⟨3, 1, 1⟩, ⟨4, 0, 1⟩]
  ++ (List.range 25).map (fun n => (⟨5 + n, 0, 1⟩ : Collider N))
  ++ (List.range 25).map (fun n => (⟨30 + n, 0, 1⟩ : Collider N))
  ++ [⟨55, 0, 1⟩]

/-- `init_world` from multibody3.rs, lines 23-291: gravity
`(0.0, -9.81, 0.0)`, the bodies of `initBodies` under their sequential
handles, the colliders of `initColliders`, the helical handle (4) and
pin-slot handle (55) captured by the two registered callbacks, and the
ground handle (56).  Spatial shift vectors and shapes are parameters no
claim depends on and are not modelled; every joint parameter, limit, motor
setting and density is.  `r!(x)` converts the `f64` literal `x` to the
scalar type `N`. -/
def initWorld (N : Type) [LinearOrderedField N] : World N :=
  ⟨(0, -(981/100), 0),
    ⟨(initBodies N).enum, (initBodies N).length⟩,
    initColliders N, 4, 55, 56⟩

example : (initWorld ℚ).helicalHandle = 4 := by decide
example : (initWorld ℚ).pinSlotHandle = 55 := by decide
example : (initWorld ℚ).groundHandle = 56 := by decide
example : (initWorld ℚ).bodies.entries.length = 57 := by decide
example : (initWorld ℚ).colliders.length = 75 := by decide

/-- Constructor tag of a joint variant. -/
inductive JointTag where
  | revolute | prismatic | ball | universal | helical | planar
  | rectangular | pinSlot | fixedJoint
deriving DecidableEq, Repr

/-- Scalar-free skeleton of a joint: its variant, which motors are enabled
and which limits are set — everything except the numeric values. -/
def Joint.shape {N : Type} : Joint N → JointTag × List Bool
  | .revolute _ => (.revolute, [])
  | .prismatic j => (.prismatic, [j.minOffset.isSome, j.maxOffset.isSome])
  | .ball _ => (.ball, [])
  | .universal j => (.universal, [j.angularMotor2Enabled])
  | .helical j => (.helical, [j.angularMotorEnabled])
  | .planar j => (.planar, [j.minOffset1.isSome, j.maxOffset1.isSome,
      j.minOffset2.isSome, j.maxOffset2.isSome])
  | .rectangular j => (.rectangular, [j.minOffset1.isSome, j.maxOffset1.isSome,
      j.minOffset2.isSome, j.maxOffset2.isSome])
  | .pinSlot j => (.pinSlot, [j.linearMotorEnabled])
  | .fixedJoint _ => (.fixedJoint, [])

/-- Scalar-free skeleton of a body: link indices, parents and joint shapes. -/
def Body.shape {N : Type} : Body N →
    Option (List (Nat × Option Nat × JointTag × List Bool))
  | .multibody mb => some (mb.links.map (fun l => (l.index, l.parent, l.joint.shape)))
  | .ground => none

/-- Scalar-free skeleton of a whole world: all structure (handles, link
trees, joint variants, enabled motors and limits, collider attachment
points) with the numeric values erased.  Two worlds over different scalar
types can be compared through it. -/
def worldShape {N : Type} (w : World N) :
    List (Nat × Option (List (Nat × Option Nat × JointTag × List Bool))) × Nat
      × List (Nat × Nat) × Nat × Nat × Nat :=
  (w.bodies.entries.map (fun e => (e.1, e.2.shape)), w.bodies.nextHandle,
    w.colliders.map (fun c => (c.bodyHandle, c.linkIndex)),
    w.helicalHandle, w.pinSlotHandle, w.groundHandle)

/-- The slice of the testbed state `init_world` touches: the installed
world, the ground handle, and the registered callbacks (counted, since the
two callbacks are determined by the world's captured handles). -/
structure Testbed (N : Type) where
  world : Option (World N)
  groundHandle : Option Nat
  callbackCount : Nat
deriving DecidableEq, Repr

/-- A fresh testbed, before any `init_world` ran. -/
def Testbed.new {N : Type} : Testbed N := ⟨none, none, 0⟩

/-- `init_world` at the testbed level: builds the world, registers the two
callbacks (`testbed.add_callback` twice), sets the ground handle and
installs the world.  A pure function of the incoming testbed state. -/
def init_world {N : Type} [LinearOrderedField N] (t : Testbed N) : Testbed N :=
  let w := initWorld N
  { t with
    world := some w
    groundHandle := some w.groundHandle
    callbackCount := t.callbackCount + 2 }

/-- Modelled from the spec (§4.2, §4.4): the solver's view of one limited
offset coordinate — an offset with optional enabled min/max bounds.  The
per-joint limit fields of `PrismaticJoint`, `PlanarJoint` and
`RectangularJoint` are instances, one per offset axis.  The engine's solver
is not among the given sources. -/
structure LimitedJoint (N : Type) where
  offset : N
  minOffset : Option N
  maxOffset : Option N
deriving DecidableEq, Repr

/-- An enabled limit pair is well-formed: min ≤ max when both are enabled
(as in every scene of `init_world`). -/
def LimitedJoint.limitsConsistent {N : Type} [LinearOrder N]
    (j : LimitedJoint N) : Prop :=
  ∀ mn ∈ j.minOffset, ∀ mx ∈ j.maxOffset, mn ≤ mx

/-- The offset respects every enabled bound. -/
def LimitedJoint.withinLimits {N : Type} [LinearOrder N]
    (j : LimitedJoint N) : Bool :=
  (match j.minOffset with | none => true | some mn => decide (mn ≤ j.offset)) &&
  (match j.maxOffset with | none => true | some mx => decide (j.offset ≤ mx))

/-- Modelled from the spec (§4.2, §4.4): solving projects the offset back
into the enabled bounds — an enabled limit is an inequality constraint
enforced alongside the equality constraints. -/
def LimitedJoint.enforceLimits {N : Type} [LinearOrder N]
    (j : LimitedJoint N) : LimitedJoint N :=
  let o1 := match j.minOffset with | none => j.offset | some mn => max mn j.offset
  let o2 := match j.maxOffset with | none => o1 | some mx => min o1 mx
  { j with offset := o2 }

/-- Modelled from the spec (§4.5): one step seen by a limited coordinate —
an arbitrary force/velocity input moves the offset by `input`, then the
solver enforces the enabled limits. -/
def LimitedJoint.solveStep {N : Type} [LinearOrderedField N]
    (input : N) (j : LimitedJoint N) : LimitedJoint N :=
  LimitedJoint.enforceLimits { j with offset := j.offset + input }

/-- A whole step sequence with arbitrary per-step inputs. -/
def LimitedJoint.solveRun {N : Type} [LinearOrderedField N]
    (inputs : List N) (j : LimitedJoint N) : LimitedJoint N :=
  inputs.foldl (fun j input => LimitedJoint.solveStep input j) j

/-- 3-vector over the scalar type (`Vec3` of cross3d.rs). -/
structure Vec3 (N : Type) where
  x : N
  y : N
  z : N
deriving DecidableEq, Repr

instance instAddVec3 {N : Type} [Add N] : Add (Vec3 N) :=
  ⟨fun a b => ⟨a.x + b.x, a.y + b.y, a.z + b.z⟩⟩

/-- The geometries cross3d.rs uses: `Plane::new(normal)` and the compound of
three boxes (`CompoundAABB` of `box1`, `box2`, `box3` given by their
half-extents). -/
inductive Geom (N : Type) where
  | plane (normal : Vec3 N)
  | crossCompound (b1 b2 b3 : Vec3 N)
deriving DecidableEq, Repr

/-- `Static`, `Dynamic`, `Kinematic` body status (spec §3). -/
inductive BodyStatus where
  | Static | Dynamic | Kinematic
deriving DecidableEq, Repr

/-- A rigid body as cross3d.rs creates it:
`RigidBody::new(geom, density, status, restitution, friction)`, placed at
the origin with zero velocity. -/
structure RigidBody (N : Type) where
  geom : Geom N
  density : N
  status : BodyStatus
  restitution : N
  friction : N
  translation : Vec3 N
  velocity : Vec3 N
deriving DecidableEq, Repr

/-- `RigidBody::new(geom, density, status, restitution, friction)`. -/
def RigidBody.new {N : Type} [Zero N] (geom : Geom N) (density : N)
    (status : BodyStatus) (restitution friction : N) : RigidBody N :=
  ⟨geom, density, status, restitution, friction, ⟨0, 0, 0⟩, ⟨0, 0, 0⟩⟩

/-- `rb.translate_by(&v)`. -/
def RigidBody.translate_by {N : Type} [Add N] (rb : RigidBody N)
    (v : Vec3 N) : RigidBody N :=
  { rb with translation := rb.translation + v }

/-- Modelled from the spec (§3, §4.5): one integrator step on a single body.
Static bodies have infinite effective mass and are never integrated; dynamic
bodies receive gravity into their velocity then integrate their position;
kinematic bodies integrate their position from their own velocity.  Contact
and constraint impulses are not modelled here (the claim settled against
this definition only concerns bodies the integrator must not touch).  The
engine's integrator is not among the given sources. -/
def stepBody {N : Type} [LinearOrderedField N] (gravity : Vec3 N) (dt : N)
    (rb : RigidBody N) : RigidBody N :=
  match rb.status with
  | .Static => rb
  | .Dynamic =>
    let v : Vec3 N := ⟨rb.velocity.x + dt * gravity.x,
      rb.velocity.y + dt * gravity.y, rb.velocity.z + dt * gravity.z⟩
    { rb with
      velocity := v
      translation := ⟨rb.translation.x + dt * v.x, rb.translation.y + dt * v.y,
        rb.translation.z + dt * v.z⟩ }
  | .Kinematic =>
    { rb with
      translation := ⟨rb.translation.x + dt * rb.velocity.x,
        rb.translation.y + dt * rb.velocity.y,
        rb.translation.z + dt * rb.velocity.z⟩ }

/-- `n` integrator steps. -/
def stepBodyN {N : Type} [LinearOrderedField N] (gravity : Vec3 N) (dt : N) :
    Nat → RigidBody N → RigidBody N
  | 0, rb => rb
  | n + 1, rb => stepBodyN gravity dt n (stepBody gravity dt rb)

/-- The compound cross shape of cross3d.rs (lines 54-63): three boxes with
half-extents `(5, 0.25, 0.25)`, `(0.25, 5, 0.25)`, `(0.25, 0.25, 5)`, shared
by every dynamic body. -/
def crossGeom : Geom ℚ :=
  .crossCompound ⟨5, 1/4, 1/4⟩ ⟨1/4, 5, 1/4⟩ ⟨1/4, 1/4, 5⟩

/-- The ground of cross3d.rs (line 45): a static plane with upward normal,
density `0.0`, restitution `0.3`, friction `0.6`. -/
def planeBody : RigidBody ℚ :=
  RigidBody.new (.plane ⟨0, 1, 0⟩) 0 .Static (3/10) (3/5)

/-- `shift = (rad + 0.08) * 2.0` with `rad = 5.0` (cross3d.rs line 70). -/
def crossShift : ℚ := (5 + 8/100) * 2

/-- `centerx = shift * (num as f64) / 2.0` with `num = 6`. -/
def crossCenterX : ℚ := crossShift * 6 / 2

/-- `centery = 30.0 + shift / 2.0`. -/
def crossCenterY : ℚ := 30 + crossShift / 2

/-- `centerz = shift * (num as f64) / 2.0`. -/
def crossCenterZ : ℚ := crossShift * 6 / 2

/-- The translation of the dynamic body at grid position `(i, j, k)`
(cross3d.rs lines 78-80). -/
def crossPos (i j k : Nat) : Vec3 ℚ :=
  ⟨(i : ℚ) * crossShift - crossCenterX,
    (j : ℚ) * crossShift + crossCenterY,
    (k : ℚ) * crossShift - crossCenterZ⟩

/-- The dynamic body at grid position `(i, j, k)` (cross3d.rs lines 82-84):
the shared compound cross, density `1.0`, `Dynamic`, restitution `0.3`,
friction `0.5`, translated to its grid point. -/
def crossBodyAt (i j k : Nat) : RigidBody ℚ :=
  (RigidBody.new crossGeom 1 .Dynamic (3/10) (1/2)).translate_by (crossPos i j k)

/-- The bodies `cross3d` adds to the world, in `add_body` order: the static
plane, then the `6 × 6 × 6` grid of dynamic crosses (loops over `i`, `j`,
`k` in that nesting order). -/
def cross3d : List (RigidBody ℚ) :=
  planeBody ::
    (List.range 6).flatMap (fun i =>
      (List.range 6).flatMap (fun j =>
        (List.range 6).map (fun k => crossBodyAt i j k)))

/-- `world.set_gravity(Vec3::new(0.0, -9.81, 0.0))` (cross3d.rs line 40). -/
def cross3dGravity : Vec3 ℚ := ⟨0, -(981/100), 0⟩

/-- The grid points the 216 dynamic crosses are translated to, in loop
order. -/
def crossPositions : List (Vec3 ℚ) :=
  (List.range 6).flatMap (fun i =>
    (List.range 6).flatMap (fun j =>
      (List.range 6).map (fun k => crossPos i j k)))

set_option maxRecDepth 4000 in
example : cross3d.length = 217 := by decide

/-- If this body is a multibody whose link 0 is present, that link's joint
downcasts to `HelicalJoint` (the property making the first callback's
`unwrap` safe). -/
def Body.helicalAt0 {N : Type} : Body N → Bool
  | .multibody mb =>
    match mb.link 0 with
    | none => true
    | some l => l.joint.downcastHelical.isSome
  | .ground => true

/-- If this body is a multibody whose link 0 is present, that link's joint
downcasts to `PinSlotJoint` (the property making the second callback's
`unwrap` safe). -/
def Body.pinSlotAt0 {N : Type} : Body N → Bool
  | .multibody mb =>
    match mb.link 0 with
    | none => true
    | some l => l.joint.downcastPinSlot.isSome
  | .ground => true

/-- One stored entry is safe for the two callbacks capturing `helH` and
`pinH`: whatever lives under the helical handle downcasts to helical at
link 0, whatever lives under the pin-slot handle downcasts to pin-slot. -/
def entrySafe {N : Type} (helH pinH : Nat) (e : Nat × Body N) : Prop :=
  (e.1 = helH → e.2.helicalAt0 = true) ∧ (e.1 = pinH → e.2.pinSlotAt0 = true)

/-- Every entry of the body set is safe for the two callbacks. -/
def callbackSafe {N : Type} (helH pinH : Nat) (bs : BodySet N) : Prop :=
  ∀ e ∈ bs.entries, entrySafe helH pinH e

/-- Executable check for `callbackSafe`. -/
def callbackSafeB {N : Type} (helH pinH : Nat) (bs : BodySet N) : Bool :=
  bs.entries.all (fun e =>
    (!(e.1 == helH) || e.2.helicalAt0) && (!(e.1 == pinH) || e.2.pinSlotAt0))

/-! ## Helper lemmas about the chain builder -/

theorem chainDesc_succ {N : Type} (root child : Joint N) (k : Nat) :
    chainDesc root child (k + 1) = (chainDesc root child k).addChild child := by
  simp [chainDesc, List.range_succ]

theorem chainDesc_childJoints {N : Type} (root child : Joint N) (k : Nat) :
    (chainDesc root child k).childJoints = List.replicate k child := by
  induction k with
  | zero => rfl
  | succ k ih =>
    rw [chainDesc_succ]
    simp [MultibodyDesc.addChild, ih, List.replicate_succ']

theorem chainDesc_rootJoint {N : Type} (root child : Joint N) (k : Nat) :
    (chainDesc root child k).rootJoint = root := by
  induction k with
  | zero => rfl
  | succ k ih =>
    rw [chainDesc_succ]
    simpa [MultibodyDesc.addChild] using ih

theorem buildChain_length {N : Type} (joints : List (Joint N)) (idx : Nat) :
    (buildChain joints idx).length = joints.length := by
  induction joints generalizing idx with
  | nil => rfl
  | cons j rest ih => simp [buildChain, ih]

theorem buildChain_replicate_get? {N : Type} (child : Joint N) (k idx i : Nat)
    (h : i < k) :
    (buildChain (List.replicate k child) idx).get? i =
      some ⟨idx + i + 1, some (idx + i), child⟩ := by
  induction k generalizing idx i with
  | zero => omega
  | succ k ih =>
    rw [List.replicate_succ]
    cases i with
    | zero => simp [buildChain]
    | succ i =>
      have h' : i < k := by omega
      rw [buildChain, List.get?_cons_succ, ih (idx + 1) i h']
      have e : idx + 1 + i = idx + (i + 1) := by omega
      rw [e]

theorem buildChain_parent_lt {N : Type} (joints : List (Joint N)) (idx : Nat) :
    ∀ l ∈ buildChain joints idx, ∀ p, l.parent = some p → p < l.index := by
  induction joints generalizing idx with
  | nil => intro l hl; simp [buildChain] at hl
  | cons j rest ih =>
    intro l hl p hp
    rw [buildChain] at hl
    rcases List.mem_cons.1 hl with h | h
    · subst h
      simp only [Link.parent, Option.some.injEq] at hp
      simp only [Link.index]
      omega
    · exact ih (idx + 1) l h p hp

theorem buildChain_jointCount {N : Type} (joints : List (Joint N)) (idx : Nat) :
    ((buildChain joints idx).filter (fun l => l.parent.isSome)).length
      = joints.length := by
  induction joints generalizing idx with
  | nil => rfl
  | cons j rest ih => simp [buildChain, List.filter_cons, ih]

theorem build_links_length {N : Type} (d : MultibodyDesc N) :
    d.build.links.length = d.childJoints.length + 1 := by
  simp [MultibodyDesc.build, buildChain_length]

theorem build_jointCount {N : Type} (d : MultibodyDesc N) :
    d.build.jointCount = d.childJoints.length := by
  simp [MultibodyDesc.build, Multibody.jointCount, List.filter_cons,
    buildChain_jointCount]

theorem chainDesc_build_length {N : Type} (root child : Joint N) (k : Nat) :
    (chainDesc root child k).build.links.length = k + 1 := by
  rw [build_links_length, chainDesc_childJoints, List.length_replicate]

/-! ## Claim theorems -/

/-- C1: building a multibody from a root joint plus `k` attached children (as
`init_world` does with `k = 6` for the revolute, prismatic and ball chains)
and then querying `link(i)` returns a present link for every `i ≤ k` and an
absent result for `i = k + 1`. -/
theorem multibody_link_roundTrip {N : Type} (root child : Joint N) (k : Nat) :
    (∀ i, i ≤ k → ((chainDesc root child k).build.link i).isSome = true) ∧
      (chainDesc root child k).build.link (k + 1) = none := by
  constructor
  · intro i hi
    cases hg : (chainDesc root child k).build.links.get? i with
    | some l => rw [Multibody.link, hg]; rfl
    | none =>
      rw [List.get?_eq_none, chainDesc_build_length] at hg
      omega
  · rw [Multibody.link, List.get?_eq_none, chainDesc_build_length]

/-- C1 witness: the revolute chain of `init_world` (`num = 6`) has a present
link at index 6 and an absent one at index 7. -/
theorem multibody_link_roundTrip_witness :
    (((chainDesc (N := ℚ) (.revolute ⟨-(1/10)⟩) (.revolute ⟨-(1/10)⟩) 6).build.link
        6).isSome = true) ∧
      (chainDesc (N := ℚ) (.revolute ⟨-(1/10)⟩) (.revolute ⟨-(1/10)⟩)
        6).build.link 7 = none :=
  ⟨(multibody_link_roundTrip _ _ 6).1 6 (by decide),
    (multibody_link_roundTrip _ _ 6).2⟩

/-- C7: link indices are determined by attachment order — link 0 is the root
carrying the root joint, and the `i`-th attached child (1-based) of a chain
of `k` children becomes link `i`, its parent being link `i - 1`, so
`BodyPartHandle(multibody, i)` for `i ≤ k` addresses the root and the
children in attachment order. -/
theorem link_indices_by_attachment_order {N : Type} (root child : Joint N)
    (k i : Nat) :
    ((chainDesc root child k).build.link 0 = some ⟨0, none, root⟩) ∧
      (1 ≤ i → i ≤ k →
        (chainDesc root child k).build.link i = some ⟨i, some (i - 1), child⟩) := by
  constructor
  · simp [Multibody.link, MultibodyDesc.build, chainDesc_rootJoint]
  · intro h1 hk
    obtain ⟨i', rfl⟩ : ∃ i', i = i' + 1 := ⟨i - 1, by omega⟩
    rw [Multibody.link, MultibodyDesc.build]
    simp only [List.get?_cons_succ]
    rw [chainDesc_childJoints, buildChain_replicate_get? child k 0 i' (by omega)]
    simp

/-- C7 witness: in the prismatic chain of `init_world`, the 3rd attached
child is link 3 with parent link 2. -/
theorem link_indices_by_attachment_order_witness :
    (chainDesc (N := ℚ) (.prismatic ⟨0, some (-(2/5)), none⟩)
        (.prismatic ⟨0, some (-(2/5)), none⟩) 6).build.link 3 =
      some ⟨3, some 2, .prismatic ⟨0, some (-(2/5)), none⟩⟩ :=
  (link_indices_by_attachment_order _ _ 6 3).2 (by decide) (by decide)

/-- C4: every multibody produced by the builder is acyclic (every link's
parent has a strictly smaller index) and its link count equals its joint
count plus one; in particular the revolute multibody of `init_world` (root
joint plus `num = 6` children, inserted at handle 0) has exactly 7 links,
and the colliders attached to it by the loop over `0..num + 1` hit link
indices `0, 1, ..., 6` exactly — every link, nothing else. -/
theorem multibody_structural_invariant {N : Type} (desc : MultibodyDesc N) :
    (∀ l ∈ desc.build.links, ∀ p, l.parent = some p → p < l.index) ∧
      desc.build.links.length = desc.build.jointCount + 1 ∧
      ((initWorld ℚ).bodies.multibody_mut 0).map (fun mb => mb.links.length)
        = some 7 ∧
      ((initWorld ℚ).colliders.filter (fun c => c.bodyHandle == 0)).map
          Collider.linkIndex = List.range 7 := by
  refine ⟨?_, ?_, by decide, by decide⟩
  · intro l hl p hp
    rw [MultibodyDesc.build] at hl
    rcases List.mem_cons.1 hl with h | h
    · subst h
      exact Option.noConfusion hp
    · exact buildChain_parent_lt _ 0 l h p hp
  · rw [build_links_length, build_jointCount]

/-- C4 witness: in the built ball-joint chain of `init_world`, link 3's
parent 2 has a smaller index, and the link/joint counts line up. -/
theorem multibody_structural_invariant_witness :
    (2 : Nat) < 3 ∧
      (chainDesc (N := ℚ) (.ball {}) (.ball {}) 6).build.links.length =
        (chainDesc (N := ℚ) (.ball {}) (.ball {}) 6).build.jointCount + 1 :=
  ⟨(multibody_structural_invariant
        (chainDesc (N := ℚ) (.ball {}) (.ball {}) 6)).1
      ⟨3, some 2, .ball {}⟩ (by decide) 2 rfl,
    (multibody_structural_invariant
        (chainDesc (N := ℚ) (.ball {}) (.ball {}) 6)).2.1⟩

/-- C2: lookups through stale handles fail safely — `multibody_mut` on a
removed body returns `none`, `link`/`link_mut` on an out-of-range link index
returns `none`, and each of the two callbacks of `init_world`, run when its
multibody lookup comes back absent, returns without fault and skips its
motor logic (the body set is unchanged). -/
theorem stale_handle_lookups_safe {N : Type} [LinearOrderedField N] :
    (∀ (bs : BodySet N) (h : Nat), (bs.removeBody h).multibody_mut h = none) ∧
      (∀ (mb : Multibody N) (i : Nat), mb.links.length ≤ i → mb.link i = none) ∧
      (∀ (bs : BodySet N) (h : Nat), bs.multibody_mut h = none →
        helicalCallback h bs = some bs) ∧
      (∀ (bs : BodySet N) (h : Nat), bs.multibody_mut h = none →
        pinSlotCallback h bs = some bs) := by
  refine ⟨?_, ?_, ?_, ?_⟩
  · intro bs h
    rw [BodySet.multibody_mut]
    have hf : (bs.removeBody h).entries.find? (fun e => e.1 == h) = none := by
      rw [List.find?_eq_none]
      intro x hx
      simp only [BodySet.removeBody] at hx
      have hx2 := (List.mem_filter.1 hx).2
      simp only [ne_eq, decide_not, Bool.not_eq_true', decide_eq_false_iff_not]
        at hx2
      simp [hx2]
    rw [hf]
    rfl
  · intro mb i hi
    rw [Multibody.link, List.get?_eq_none]
    exact hi
  · intro bs h hnone
    simp [helicalCallback, hnone]
  · intro bs h hnone
    simp [pinSlotCallback, hnone]

/-- C2 witness: delete the helical body of `init_world`; the lookup through
its handle is absent and the helical callback leaves the body set alone. -/
theorem stale_handle_lookups_safe_witness :
    ((initWorld ℚ).bodies.removeBody 4).multibody_mut 4 = none ∧
      helicalCallback 4 ((initWorld ℚ).bodies.removeBody 4) =
        some ((initWorld ℚ).bodies.removeBody 4) :=
  ⟨(stale_handle_lookups_safe (N := ℚ)).1 (initWorld ℚ).bodies 4,
    (stale_handle_lookups_safe (N := ℚ)).2.2.1 ((initWorld ℚ).bodies.removeBody 4) 4
      ((stale_handle_lookups_safe (N := ℚ)).1 (initWorld ℚ).bodies 4)⟩

/-- C3: the two callbacks of `init_world` implement threshold-based reactive
motor logic — the helical joint's angular motor is enabled below offset
`-5.0`, disabled above offset `0.0`, and left unchanged on `[-5, 0]`; the
pin-slot joint's linear motor is enabled below offset `-10.0`, disabled
above offset `-4.0`, and left unchanged on `[-10, -4]`. -/
theorem callback_threshold_logic {N : Type} [LinearOrderedField N] :
    (∀ dof : HelicalJoint N,
      (dof.offset < -5 →
        helicalMotorUpdate dof = { dof with angularMotorEnabled := true }) ∧
      (0 < dof.offset →
        helicalMotorUpdate dof = { dof with angularMotorEnabled := false }) ∧
      (-5 ≤ dof.offset → dof.offset ≤ 0 → helicalMotorUpdate dof = dof)) ∧
    (∀ dof : PinSlotJoint N,
      (dof.offset < -10 →
        pinSlotMotorUpdate dof = { dof with linearMotorEnabled := true }) ∧
      (-4 < dof.offset →
        pinSlotMotorUpdate dof = { dof with linearMotorEnabled := false }) ∧
      (-10 ≤ dof.offset → dof.offset ≤ -4 → pinSlotMotorUpdate dof = dof)) := by
  constructor
  · intro dof
    refine ⟨fun h => ?_, fun h => ?_, fun h1 h2 => ?_⟩
    · simp only [helicalMotorUpdate]
      rw [if_pos h]
    · simp only [helicalMotorUpdate]
      rw [if_neg (by linarith), if_pos h]
    · simp only [helicalMotorUpdate]
      rw [if_neg (by linarith), if_neg (by linarith)]
  · intro dof
    refine ⟨fun h => ?_, fun h => ?_, fun h1 h2 => ?_⟩
    · simp only [pinSlotMotorUpdate]
      rw [if_pos h]
    · simp only [pinSlotMotorUpdate]
      rw [if_neg (by linarith), if_pos h]
    · simp only [pinSlotMotorUpdate]
      rw [if_neg (by linarith), if_neg (by linarith)]

/-- C3 witness: at offset `-6` the helical motor gets enabled; at offset `0`
(above `-4`) the pin-slot motor gets disabled. -/
theorem callback_threshold_logic_witness :
    helicalMotorUpdate (N := ℚ) ⟨1, -6, false, 4⟩ = ⟨1, -6, true, 4⟩ ∧
      pinSlotMotorUpdate (N := ℚ) ⟨0, 0, true, 3⟩ = ⟨0, 0, false, 3⟩ :=
  ⟨((callback_threshold_logic (N := ℚ)).1 ⟨1, -6, false, 4⟩).1 (by norm_num),
    ((callback_threshold_logic (N := ℚ)).2 ⟨0, 0, true, 3⟩).2.1 (by norm_num)⟩

theorem enforceLimits_withinLimits {N : Type} [LinearOrderedField N]
    (j : LimitedJoint N) (hcons : j.limitsConsistent) :
    (LimitedJoint.enforceLimits j).withinLimits = true := by
  rcases j with ⟨o, mino, maxo⟩
  cases mino with
  | none =>
    cases maxo with
    | none => rfl
    | some mx =>
      simp only [LimitedJoint.enforceLimits, LimitedJoint.withinLimits,
        Bool.true_and, decide_eq_true_iff]
      exact min_le_right o mx
  | some mn =>
    cases maxo with
    | none =>
      simp only [LimitedJoint.enforceLimits, LimitedJoint.withinLimits,
        Bool.and_true, decide_eq_true_iff]
      exact le_max_left mn o
    | some mx =>
      have hmm : mn ≤ mx := hcons mn rfl mx rfl
      simp only [LimitedJoint.enforceLimits, LimitedJoint.withinLimits,
        Bool.and_eq_true, decide_eq_true_iff]
      exact ⟨le_min (le_max_left mn o) hmm, min_le_right (max mn o) mx⟩

theorem solveStep_withinLimits {N : Type} [LinearOrderedField N] (x : N)
    (j : LimitedJoint N) (hcons : j.limitsConsistent) :
    (LimitedJoint.solveStep x j).withinLimits = true :=
  enforceLimits_withinLimits _ hcons

/-- C5: the solver never lets an enforced offset leave its enabled bounds —
for every limited coordinate with consistent enabled limits (as set up for
the prismatic, planar and rectangular joints of `init_world`), after any
nonempty sequence of steps with arbitrary per-step force/velocity inputs the
offset respects every enabled bound. -/
theorem limits_hold_after_solving {N : Type} [LinearOrderedField N]
    (j : LimitedJoint N) (inputs : List N) (hcons : j.limitsConsistent)
    (hne : inputs ≠ []) :
    (LimitedJoint.solveRun inputs j).withinLimits = true := by
  induction inputs generalizing j with
  | nil => exact absurd rfl hne
  | cons x rest ih =>
    have hstep : LimitedJoint.solveRun (x :: rest) j
        = LimitedJoint.solveRun rest (LimitedJoint.solveStep x j) := rfl
    rw [hstep]
    cases rest with
    | nil => exact solveStep_withinLimits x j hcons
    | cons y t =>
      exact ih (LimitedJoint.solveStep x j) hcons (by simp)

/-- C5 witness: the prismatic coordinate of `init_world`
(`enable_min_offset(-0.8 * rad)`, i.e. lower bound `-0.4`) stays within its
enabled bound across two pushes of `-1`. -/
theorem limits_hold_after_solving_witness :
    (LimitedJoint.solveRun (N := ℚ) [-1, -1] ⟨0, some (-(2/5)), none⟩).withinLimits
      = true :=
  limits_hold_after_solving ⟨0, some (-(2/5)), none⟩ [-1, -1]
    (by simp [LimitedJoint.limitsConsistent]) (by simp)

/-- C6: a body created with `Static` status — such as the ground plane of
`cross3d` — is never integrated: its position and velocity (indeed its whole
state) are unchanged by any number of integrator steps, for any gravity and
timestep. -/
theorem static_bodies_never_integrated {N : Type} [LinearOrderedField N]
    (g : Vec3 N) (dt : N) (rb : RigidBody N) (h : rb.status = .Static)
    (n : Nat) :
    stepBodyN g dt n rb = rb := by
  induction n with
  | zero => rfl
  | succ n ih =>
    rw [stepBodyN]
    have hs : stepBody g dt rb = rb := by
      simp [stepBody, h]
    rw [hs]
    exact ih

/-- C6 witness: the static ground plane of `cross3d` is untouched by 100
steps under the scene's gravity. -/
theorem static_bodies_never_integrated_witness :
    stepBodyN cross3dGravity (1/60) 100 planeBody = planeBody :=
  static_bodies_never_integrated cross3dGravity (1/60) planeBody rfl 100

set_option maxRecDepth 10000 in
set_option maxHeartbeats 1000000 in
/-- C8: `init_world` is defined uniformly over the scalar type (any linear
ordered field stands for `N: RealField`) and is deterministic within one
scalar type — equal testbed states yield equal results — and across scalar
types it builds the same world skeleton (same bodies, links, joint variants,
enabled limits and motors, collider attachments) as the `ℚ` instance. -/
theorem init_world_scalar_generic_deterministic {N : Type}
    [LinearOrderedField N] :
    (∀ t1 t2 : Testbed N, t1 = t2 → init_world t1 = init_world t2) ∧
      worldShape (initWorld N) = worldShape (initWorld ℚ) := by
  refine ⟨fun t1 t2 h => by rw [h], ?_⟩
  rfl

/-- C8 witness: two runs of `init_world` on the same fresh `f32`-style
testbed (instantiated at `ℚ`) agree. -/
theorem init_world_scalar_generic_deterministic_witness :
    init_world (Testbed.new (N := ℚ)) = init_world (Testbed.new (N := ℚ)) :=
  (init_world_scalar_generic_deterministic (N := ℚ)).1 Testbed.new Testbed.new rfl

theorem callbackSafe_of_B {N : Type} (helH pinH : Nat) (bs : BodySet N)
    (hb : callbackSafeB helH pinH bs = true) : callbackSafe helH pinH bs := by
  intro e he
  have h1 := List.all_eq_true.1 hb e he
  simp only [Bool.and_eq_true, Bool.or_eq_true, Bool.not_eq_true',
    beq_eq_false_iff_ne, ne_eq] at h1
  constructor
  · intro hh
    rcases h1.1 with h | h
    · exact absurd hh h
    · exact h
  · intro hh
    rcases h1.2 with h | h
    · exact absurd hh h
    · exact h

theorem downcastHelical_withOffset {N : Type} (j : Joint N) (v : N) :
    ((j.withOffset v).downcastHelical).isSome = j.downcastHelical.isSome := by
  cases j <;> rfl

theorem downcastPinSlot_withOffset {N : Type} (j : Joint N) (v : N) :
    ((j.withOffset v).downcastPinSlot).isSome = j.downcastPinSlot.isSome := by
  cases j <;> rfl

theorem helicalAt0_offsetAt {N : Type} (b : Body N) (i : Nat) (v : N) :
    (b.offsetAt i v).helicalAt0 = b.helicalAt0 := by
  cases b with
  | ground => rfl
  | multibody mb =>
    cases hls : mb.links with
    | nil =>
      simp [Body.offsetAt, Multibody.setLinkOffset, hls, setOffsetLinks,
        Body.helicalAt0, Multibody.link]
    | cons l0 rest =>
      cases i with
      | zero =>
        simp [Body.offsetAt, Multibody.setLinkOffset, hls, setOffsetLinks,
          Body.helicalAt0, Multibody.link, downcastHelical_withOffset]
      | succ i =>
        simp [Body.offsetAt, Multibody.setLinkOffset, hls, setOffsetLinks,
          Body.helicalAt0, Multibody.link]

theorem pinSlotAt0_offsetAt {N : Type} (b : Body N) (i : Nat) (v : N) :
    (b.offsetAt i v).pinSlotAt0 = b.pinSlotAt0 := by
  cases b with
  | ground => rfl
  | multibody mb =>
    cases hls : mb.links with
    | nil =>
      simp [Body.offsetAt, Multibody.setLinkOffset, hls, setOffsetLinks,
        Body.pinSlotAt0, Multibody.link]
    | cons l0 rest =>
      cases i with
      | zero =>
        simp [Body.offsetAt, Multibody.setLinkOffset, hls, setOffsetLinks,
          Body.pinSlotAt0, Multibody.link, downcastPinSlot_withOffset]
      | succ i =>
        simp [Body.offsetAt, Multibody.setLinkOffset, hls, setOffsetLinks,
          Body.pinSlotAt0, Multibody.link]

theorem helicalAt0_setJoint_helical {N : Type} (b : Body N)
    (dof : HelicalJoint N) :
    (b.setJoint 0 (.helical dof)).helicalAt0 = true := by
  cases b with
  | ground => rfl
  | multibody mb =>
    cases hls : mb.links with
    | nil =>
      simp [Body.setJoint, Multibody.setJoint, hls, setJointLinks,
        Body.helicalAt0, Multibody.link]
    | cons l0 rest =>
      simp [Body.setJoint, Multibody.setJoint, hls, setJointLinks,
        Body.helicalAt0, Multibody.link, Joint.downcastHelical]

theorem pinSlotAt0_setJoint_pinSlot {N : Type} (b : Body N)
    (dof : PinSlotJoint N) :
    (b.setJoint 0 (.pinSlot dof)).pinSlotAt0 = true := by
  cases b with
  | ground => rfl
  | multibody mb =>
    cases hls : mb.links with
    | nil =>
      simp [Body.setJoint, Multibody.setJoint, hls, setJointLinks,
        Body.pinSlotAt0, Multibody.link]
    | cons l0 rest =>
      simp [Body.setJoint, Multibody.setJoint, hls, setJointLinks,
        Body.pinSlotAt0, Multibody.link, Joint.downcastPinSlot]

theorem multibody_mut_mem {N : Type} (bs : BodySet N) (h : Nat)
    (mb : Multibody N) (hm : bs.multibody_mut h = some mb) :
    ∃ e ∈ bs.entries, e.1 = h ∧ e.2 = Body.multibody mb := by
  rw [BodySet.multibody_mut] at hm
  cases hf : bs.entries.find? (fun e => e.1 == h) with
  | none => rw [hf] at hm; cases hm
  | some e =>
    rw [hf] at hm
    simp only [Option.some_bind] at hm
    refine ⟨e, List.mem_of_find?_eq_some hf, ?_, ?_⟩
    · have hp := List.find?_some hf
      simpa using hp
    · cases hb : e.2 with
      | ground => rw [hb] at hm; cases hm
      | multibody mb2 =>
        rw [hb] at hm
        simp only [Body.asMultibody, Option.some.injEq] at hm
        rw [hm]

theorem callbackSafe_removeBody {N : Type} (helH pinH h : Nat)
    (bs : BodySet N) (hsafe : callbackSafe helH pinH bs) :
    callbackSafe helH pinH (bs.removeBody h) := by
  intro e he
  simp only [BodySet.removeBody] at he
  exact hsafe e (List.mem_filter.1 he).1

theorem callbackSafe_setLinkOffset {N : Type} (helH pinH h i : Nat) (v : N)
    (bs : BodySet N) (hsafe : callbackSafe helH pinH bs) :
    callbackSafe helH pinH (bs.setLinkOffset h i v) := by
  intro e' he'
  simp only [BodySet.setLinkOffset] at he'
  obtain ⟨e0, he0, rfl⟩ := List.mem_map.1 he'
  by_cases hk : e0.1 = h
  · rw [if_pos hk]
    have hs := hsafe e0 he0
    exact ⟨fun hh => by rw [helicalAt0_offsetAt]; exact hs.1 hh,
      fun hp => by rw [pinSlotAt0_offsetAt]; exact hs.2 hp⟩
  · rw [if_neg hk]
    exact hsafe e0 he0

theorem helicalCallback_safe {N : Type} [LinearOrderedField N]
    (helH pinH : Nat) (hne : helH ≠ pinH) (bs : BodySet N)
    (hsafe : callbackSafe helH pinH bs) :
    ∃ bs', helicalCallback helH bs = some bs' ∧ callbackSafe helH pinH bs' := by
  cases hsc : (bs.multibody_mut helH).bind (fun mb => mb.link 0) with
  | none =>
    refine ⟨bs, ?_, hsafe⟩
    simp [helicalCallback, hsc]
  | some l =>
    obtain ⟨mb, hmb, hlink⟩ := Option.bind_eq_some.1 hsc
    obtain ⟨e, he, hkey, hbody⟩ := multibody_mut_mem bs helH mb hmb
    have hok : (Body.multibody mb).helicalAt0 = true := by
      rw [← hbody]
      exact (hsafe e he).1 hkey
    simp only [Body.helicalAt0, hlink] at hok
    obtain ⟨dof, hdof⟩ := Option.isSome_iff_exists.1 hok
    refine ⟨bs.setJoint helH 0 (.helical (helicalMotorUpdate dof)), ?_, ?_⟩
    · simp [helicalCallback, hsc, hdof]
    · intro e' he'
      simp only [BodySet.setJoint] at he'
      obtain ⟨e0, he0, rfl⟩ := List.mem_map.1 he'
      by_cases hk : e0.1 = helH
      · rw [if_pos hk]
        exact ⟨fun _ => helicalAt0_setJoint_helical e0.2 _,
          fun hp => absurd (hk.symm.trans hp) hne⟩
      · rw [if_neg hk]
        exact hsafe e0 he0

theorem pinSlotCallback_safe {N : Type} [LinearOrderedField N]
    (helH pinH : Nat) (hne : helH ≠ pinH) (bs : BodySet N)
    (hsafe : callbackSafe helH pinH bs) :
    ∃ bs', pinSlotCallback pinH bs = some bs' ∧ callbackSafe helH pinH bs' := by
  cases hsc : (bs.multibody_mut pinH).bind (fun mb => mb.link 0) with
  | none =>
    refine ⟨bs, ?_, hsafe⟩
    simp [pinSlotCallback, hsc]
  | some l =>
    obtain ⟨mb, hmb, hlink⟩ := Option.bind_eq_some.1 hsc
    obtain ⟨e, he, hkey, hbody⟩ := multibody_mut_mem bs pinH mb hmb
    have hok : (Body.multibody mb).pinSlotAt0 = true := by
      rw [← hbody]
      exact (hsafe e he).2 hkey
    simp only [Body.pinSlotAt0, hlink] at hok
    obtain ⟨dof, hdof⟩ := Option.isSome_iff_exists.1 hok
    refine ⟨bs.setJoint pinH 0 (.pinSlot (pinSlotMotorUpdate dof)), ?_, ?_⟩
    · simp [pinSlotCallback, hsc, hdof]
    · intro e' he'
      simp only [BodySet.setJoint] at he'
      obtain ⟨e0, he0, rfl⟩ := List.mem_map.1 he'
      by_cases hk : e0.1 = pinH
      · rw [if_pos hk]
        exact ⟨fun hh => absurd (hk.symm.trans hh).symm hne,
          fun _ => pinSlotAt0_setJoint_pinSlot e0.2 _⟩
      · rw [if_neg hk]
        exact hsafe e0 he0

theorem runOps_isSome {N : Type} [LinearOrderedField N] (helH pinH : Nat)
    (hne : helH ≠ pinH) (ops : List (WorldOp N)) (bs : BodySet N)
    (hsafe : callbackSafe helH pinH bs) :
    (runOps helH pinH ops bs).isSome = true := by
  induction ops generalizing bs with
  | nil => rfl
  | cons op ops ih =>
    cases op with
    | removeBody h =>
      exact ih (bs.removeBody h) (callbackSafe_removeBody helH pinH h bs hsafe)
    | solverSetOffset h i v =>
      exact ih (bs.setLinkOffset h i v)
        (callbackSafe_setLinkOffset helH pinH h i v bs hsafe)
    | runHelicalCallback =>
      obtain ⟨bs', hcb, hsafe'⟩ := helicalCallback_safe helH pinH hne bs hsafe
      have hr : runOps helH pinH (WorldOp.runHelicalCallback :: ops) bs
          = (helicalCallback helH bs).bind (runOps helH pinH ops) := rfl
      rw [hr, hcb]
      simp only [Option.some_bind]
      exact ih bs' hsafe'
    | runPinSlotCallback =>
      obtain ⟨bs', hcb, hsafe'⟩ := pinSlotCallback_safe helH pinH hne bs hsafe
      have hr : runOps helH pinH (WorldOp.runPinSlotCallback :: ops) bs
          = (pinSlotCallback pinH bs).bind (runOps helH pinH ops) := rfl
      rw [hr, hcb]
      simp only [Option.some_bind]
      exact ih bs' hsafe'

/-- C9: starting from the world built by `init_world`, over every
interleaving of user deletions, solver offset updates and invocations of
the two registered callbacks, the callbacks never panic — whenever the
lookup of link 0 under the helical (pin-slot) handle comes back present, the
joint downcasts to `HelicalJoint` (`PinSlotJoint`), so the `unwrap` after
`downcast_mut` always succeeds and the run never faults. -/
theorem callback_downcast_never_panics {N : Type} [LinearOrderedField N]
    (ops : List (WorldOp N)) :
    (runOps (initWorld N).helicalHandle (initWorld N).pinSlotHandle ops
      (initWorld N).bodies).isSome = true :=
  runOps_isSome (initWorld N).helicalHandle (initWorld N).pinSlotHandle
    (show (4 : Nat) ≠ 55 by decide) ops (initWorld N).bodies
    (callbackSafe_of_B _ _ _ (by rfl))

theorem Vec3.add_def {N : Type} [Add N] (a b : Vec3 N) :
    a + b = ⟨a.x + b.x, a.y + b.y, a.z + b.z⟩ := rfl

theorem crossBodyAt_translation (i j k : Nat) :
    (crossBodyAt i j k).translation = crossPos i j k := by
  simp [crossBodyAt, RigidBody.translate_by, RigidBody.new, Vec3.add_def]

theorem crossPos_inj (i j k i' j' k' : Nat)
    (heq : crossPos i j k = crossPos i' j' k') : i = i' ∧ j = j' ∧ k = k' := by
  have hx := congrArg Vec3.x heq
  have hy := congrArg Vec3.y heq
  have hz := congrArg Vec3.z heq
  simp only [crossPos] at hx hy hz
  have hs : (crossShift : ℚ) ≠ 0 := by norm_num [crossShift]
  refine ⟨Nat.cast_inj.mp (mul_right_cancel₀ hs ?_),
    Nat.cast_inj.mp (mul_right_cancel₀ hs ?_),
    Nat.cast_inj.mp (mul_right_cancel₀ hs ?_)⟩ <;> linarith

theorem crossPos_y_above_ground (i j k : Nat) :
    30 + crossShift / 2 ≤ (crossPos i j k).y ∧ 0 < (crossPos i j k).y := by
  have hj : (0 : ℚ) ≤ (j : ℚ) := Nat.cast_nonneg j
  have hs : (0 : ℚ) < crossShift := by norm_num [crossShift]
  have hmul : (0 : ℚ) ≤ (j : ℚ) * crossShift := mul_nonneg hj hs.le
  constructor
  · simp only [crossPos, crossCenterY]
    linarith
  · simp only [crossPos, crossCenterY]
    linarith

theorem cross3d_tail_mem (rb : RigidBody ℚ) (hm : rb ∈ cross3d.tail) :
    ∃ i j k, i < 6 ∧ j < 6 ∧ k < 6 ∧ rb = crossBodyAt i j k := by
  simp only [cross3d, List.tail_cons, List.mem_flatMap, List.mem_map,
    List.mem_range] at hm
  obtain ⟨i, hi, j, hj, k, hk, rfl⟩ := hm
  exact ⟨i, j, k, hi, hj, hk, rfl⟩

theorem cross3d_tail_translations :
    cross3d.tail.map (fun rb => rb.translation) = crossPositions := by
  simp only [cross3d, crossPositions, List.tail_cons, List.map_flatMap,
    List.map_map, Function.comp_def, crossBodyAt_translation]

theorem crossPositions_nodup : crossPositions.Nodup := by
  rw [crossPositions, List.nodup_flatMap]
  constructor
  · intro i _
    rw [List.nodup_flatMap]
    constructor
    · intro j _
      refine List.Nodup.map ?_ (List.nodup_range 6)
      intro k k' hkk
      exact (crossPos_inj i j k i j k' hkk).2.2
    · refine (List.pairwise_lt_range 6).imp ?_
      intro j j' hlt
      intro v hv hv'
      simp only [List.mem_map, List.mem_range] at hv hv'
      obtain ⟨k, hk, hkeq⟩ := hv
      obtain ⟨k', hk', hkeq'⟩ := hv'
      rw [← hkeq] at hkeq'
      have := (crossPos_inj i j' k' i j k hkeq').2.1
      omega
  · refine (List.pairwise_lt_range 6).imp ?_
    intro i i' hlt
    intro v hv hv'
    simp only [List.mem_flatMap, List.mem_map, List.mem_range] at hv hv'
    obtain ⟨j, hj, k, hk, hkeq⟩ := hv
    obtain ⟨j', hj', k', hk', hkeq'⟩ := hv'
    rw [← hkeq] at hkeq'
    have := (crossPos_inj i' j' k' i j k hkeq').1
    omega

set_option maxRecDepth 4000 in
/-- C10: `cross3d` adds exactly 217 bodies — first the static ground plane,
then 216 dynamic bodies (the `6 × 6 × 6` grid) all sharing the one compound
cross shape — whose initial translations are pairwise distinct grid points
whose `y`-coordinate is at least `30.0 + shift / 2`, strictly above the
ground plane. -/
theorem cross3d_scene_contents :
    cross3d.length = 217 ∧
      cross3d.head? = some planeBody ∧
      planeBody.status = .Static ∧
      planeBody.geom = Geom.plane ⟨0, 1, 0⟩ ∧
      (∀ rb ∈ cross3d.tail, rb.status = .Dynamic ∧ rb.geom = crossGeom ∧
        30 + crossShift / 2 ≤ rb.translation.y ∧ 0 < rb.translation.y) ∧
      (∀ i j k i' j' k' : Nat, crossPos i j k = crossPos i' j' k' →
        i = i' ∧ j = j' ∧ k = k') ∧
      (cross3d.tail.map (fun rb => rb.translation)).Nodup := by
  refine ⟨by decide, rfl, rfl, rfl, ?_, crossPos_inj, ?_⟩
  · intro rb hm
    obtain ⟨i, j, k, hi, hj, hk, rfl⟩ := cross3d_tail_mem rb hm
    refine ⟨rfl, rfl, ?_, ?_⟩
    · rw [crossBodyAt_translation]
      exact (crossPos_y_above_ground i j k).1
    · rw [crossBodyAt_translation]
      exact (crossPos_y_above_ground i j k).2
  · rw [cross3d_tail_translations]
    exact crossPositions_nodup

/-- C10 witness: the injectivity part applied at the concrete grid point
`(1, 2, 3)`, together with the body count. -/
theorem cross3d_scene_contents_witness :
    ((1 : Nat) = 1 ∧ (2 : Nat) = 2 ∧ (3 : Nat) = 3) ∧ cross3d.length = 217 :=
  ⟨cross3d_scene_contents.2.2.2.2.2.1 1 2 3 1 2 3 rfl,
    cross3d_scene_contents.1⟩
